import Mathlib

/-!
Verification of `compare_rootfiles.py` and `rootutils.py`: a utility that
compares the keys and the TH1 contents of two ROOT files.

The embedding models:
 * histograms (`Hist`) and generic ROOT objects (`RObj`);
 * `compare_plot` (bin-by-bin comparison with verbosity-dependent scan);
 * `get_list_of_keys_deep` (recursive key enumeration, including the
   `yield`-of-a-generator behaviour of nested folders);
 * `diff_set`, `print_missing`, `print_content_status` (set comparison and
   the divisions their reports perform);
 * `main` (key selection by regex filters, aggregation, exit codes).

Bin contents (C doubles in the source) are modelled as integers: the code
only compares them with `!=`, so only decidable equality matters.
Regex `search` calls are modelled as arbitrary `String → Bool` predicates.
-/

/-- Exit status constants from the `ExitStatus` enum. -/
def ExitStatus.IDENTICAL : Nat := 0

/-- Exit code for command line errors. -/
def ExitStatus.CLARG_ERROR : Nat := 2

/-- Exit code for internal errors. -/
def ExitStatus.INTERNAL_ERROR : Nat := 3

/-- Exit code used after `--diff` when the key listings differ. -/
def ExitStatus.EITHER_MISS : Nat := 10

/-- Exit code: the first file is missing something. -/
def ExitStatus.FIRST_MISS : Nat := 11

/-- Exit code: the second file is missing something. -/
def ExitStatus.SECOND_MISS : Nat := 12

/-- Exit code: some common object has different content. -/
def ExitStatus.DIFFERENCE_COMMON : Nat := 13

/-- A TH1 histogram: dimension and the flat array of cell contents
(`GetNcells` is the length, `GetBinContent b` indexes it). -/
structure Hist where
  dim : Nat
  cells : List Int
deriving DecidableEq

/-- `TH1::GetNcells`. -/
def Hist.GetNcells (h : Hist) : Nat := h.cells.length

/-- `TH1::GetBinContent(b)` for `0 <= b < GetNcells`. -/
def Hist.GetBinContent (h : Hist) (b : Nat) : Int := h.cells.getD b 0

/-- A ROOT object as retrieved with `TFile.Get`: either a TH1 or an object
of some other class (`TTree`, `TGraph`, ...). -/
inductive RObj where
  | hist : Hist → RObj
  | other : String → RObj
deriving DecidableEq

/-- `obj.Class().InheritsFrom('TH1')`. -/
def RObj.isTH1 : RObj → Bool
  | RObj.hist _ => true
  | RObj.other _ => false

/-- The bin loop of `compare_plot` when `print_every_bin` holds
(verbosity >= 3): every cell is visited, `ok_content` is cleared at each
differing cell and carried through to the end. -/
def binScanEvery : List (Int × Int) → Bool → Bool
  | [], ok => ok
  | (c1, c2) :: rest, ok =>
      if c1 ≠ c2 then binScanEvery rest false else binScanEvery rest ok

/-- The bin loop of `compare_plot` when `print_every_bin` is false
(verbosity < 3): the loop breaks at the first differing cell. -/
def binScanEarly : List (Int × Int) → Bool
  | [] => true
  | (c1, c2) :: rest => if c1 ≠ c2 then false else binScanEarly rest

/-- The sequence of cell-content pairs `(h1.GetBinContent(b), h2.GetBinContent(b))`
for `b in range(0, ncells1)`. -/
def binPairs (h1 h2 : Hist) : List (Int × Int) :=
  (List.range h1.GetNcells).map fun b => (h1.GetBinContent b, h2.GetBinContent b)

/-- `compare_plot(h1, h2, verbosity)`: returns `none` for the early
`return` paths (not both TH1, different dimensions, different `Ncells`) and
`some ok_content` otherwise.  The verbosity only selects which of the two
scan loops runs (and what gets printed). -/
def compare_plot (o1 o2 : RObj) (verbosity : Nat) : Option Bool :=
  match o1, o2 with
  | RObj.hist h1, RObj.hist h2 =>
      if h1.dim = h2.dim then
        if h1.GetNcells = h2.GetNcells then
          some (if verbosity ≥ 3 then binScanEvery (binPairs h1 h2) true
                else binScanEarly (binPairs h1 h2))
        else none
      else none
  | _, _ => none

/-- Python truthiness of `compare_plot`'s result as used by
`if(ok_content)` in `main`: `None` is falsy. -/
def truthy : Option Bool → Bool
  | some b => b
  | none => false

/- ## `rootutils.get_list_of_keys_deep` -/

/-- The key tree of a ROOT file: a key is either a leaf object or a folder
(`TDirectory`) holding further keys. -/
inductive KeyTree where
  | leaf : String → KeyTree
  | folder : String → List KeyTree → KeyTree

/-- A value yielded by the python generator `get_keys_in_folder`: either a
path string, or — because the inner recursion uses `yield` rather than
`yield from` — a generator object, modelled by the list of values it would
itself yield. -/
inductive PyItem where
  | str : String → PyItem
  | gen : List PyItem → PyItem

/-- `os.path.join(path, name)` for the paths occurring here (no absolute
components). -/
def pathJoin (path name : String) : String :=
  if path = "" then name else path ++ "/" ++ name

/-- The inner generator `get_keys_in_folder(tfolder, path)` of
`get_list_of_keys_deep`, run to completion over the folder's keys: a
non-folder key yields the joined path; a folder key yields the recursive
GENERATOR itself (`yield get_keys_in_folder(...)`, not `yield from`). -/
def get_keys_in_folder : List KeyTree → String → List PyItem
  | [], _ => []
  | KeyTree.leaf n :: rest, path =>
      PyItem.str (pathJoin path n) :: get_keys_in_folder rest path
  | KeyTree.folder n cs :: rest, path =>
      PyItem.gen (get_keys_in_folder cs (pathJoin path n)) :: get_keys_in_folder rest path

/-- `get_list_of_keys_deep(tfile)`, run to completion over the top level of
the file: a top-level folder is delegated with `yield from` (so its items
are spliced in), a top-level leaf yields its bare name. -/
def get_list_of_keys_deep : List KeyTree → List PyItem
  | [] => []
  | KeyTree.leaf n :: rest => PyItem.str n :: get_list_of_keys_deep rest
  | KeyTree.folder n cs :: rest => get_keys_in_folder cs n ++ get_list_of_keys_deep rest

/-- Modelled from the spec: the intended result of the key enumerator — the
fully-qualified path of every leaf entry, folders being recursed into
depth-first and not themselves listed. -/
def leafPaths : List KeyTree → String → List String
  | [], _ => []
  | KeyTree.leaf n :: rest, path => pathJoin path n :: leafPaths rest path
  | KeyTree.folder n cs :: rest, path => leafPaths cs (pathJoin path n) ++ leafPaths rest path

/- ## Set comparison and reports -/

/-- The `common` set that `diff_set` installs with
`kwargs.setdefault('common', missing1 & missing2)` when no `common` keyword
was passed (which is how `main` calls it). -/
def diff_set_common (keys1 keys2 : Finset String) : Finset String :=
  (keys2 \ keys1) ∩ (keys1 \ keys2)

/-- The value `diff_set(keys1, keys2)` returns: 12 when `missing2` is
non-empty; the `elif` tests `missing2` again (so its branch is dead); the
final `else` evaluates `ExitStatus.IDENTICAL.value` without `return`, so
the function falls through and returns `None` (here `none`). -/
def diff_set_ret (keys1 keys2 : Finset String) : Option Nat :=
  let missing2 := keys1 \ keys2
  if missing2.card > 0 then some ExitStatus.SECOND_MISS
  else if missing2.card > 0 then some ExitStatus.FIRST_MISS
  else none

/-- The denominators of the divisions `100*len(x)/total` that
`print_missing` executes: one per non-empty set among `missing1`,
`missing2` and `common`. -/
def print_missing_divs (missing1 missing2 common : Finset String) (total : Nat) : List Nat :=
  (if missing1.card > 0 then [total] else []) ++
  (if missing2.card > 0 then [total] else []) ++
  (if common.card > 0 then [total] else [])

/-- The denominators of the divisions `100*ok/tot` and `100*bad/tot` that
`print_content_status` executes: none when `tot == 0` (it returns after a
warning), otherwise the unconditional OK line and, when `bad != 0`, the
BAD line. -/
def print_content_status_divs (ok bad : Nat) : List Nat :=
  let tot := ok + bad
  if tot = 0 then []
  else [tot] ++ (if bad = 0 then [] else [tot])

/- ## `main` -/

/-- The parsed command-line options that matter to the control flow
(`verbosity` is passed separately).  The regexes are modelled by their
`search` predicate. -/
structure Args where
  diffMode : Bool
  setMode : Bool
  plot : Option (String → Bool)
  plotExclude : Option (String → Bool)

/-- The inputs `main` reads from the filesystem: whether the two paths
refer to the same file (same inode and device), the key sets of the two
files, and the objects `tf.Get` retrieves for each key. -/
structure MainInput where
  sameFile : Bool
  keys1 : Finset String
  keys2 : Finset String
  objs1 : String → RObj
  objs2 : String → RObj

/-- The `--plot` selection step: `matching_keys = {k for k in keys1|keys2
if args.plot.search(k)}`, with `none` for the `CLARG_ERROR` return when
nothing matches. -/
def selectPlotKeys (keys : Finset String) (plot : Option (String → Bool)) :
    Option (Finset String) :=
  match plot with
  | none => some keys
  | some p =>
      let m := keys.filter fun k => p k
      if m.card = 0 then none else some m

/-- The `--plot-exclude` step: keep the keys the exclusion regex does not
match, with `none` for the `CLARG_ERROR` return when everything is
excluded. -/
def selectExcludeKeys (keys : Finset String) (exclude : Option (String → Bool)) :
    Option (Finset String) :=
  match exclude with
  | none => some keys
  | some e =>
      let m := keys.filter fun k => !(e k)
      if m.card = 0 then none else some m

/-- The whole key selection of `main`: start from `keys1 | keys2`, apply
`--plot` then `--plot-exclude`; `none` means an error return. -/
def selectKeys (keys1 keys2 : Finset String) (plot exclude : Option (String → Bool)) :
    Option (Finset String) :=
  (selectPlotKeys (keys1 ∪ keys2) plot).bind fun m => selectExcludeKeys m exclude

/-- The in-depth comparison section of `main`: computes `missing_keys`,
`common_keys` and `content_status` (a pair counted `OK` exactly when
`compare_plot`'s result is truthy), then the exit code with the priority
`DIFFERENCE_COMMON`, `SECOND_MISS`, `FIRST_MISS`, `IDENTICAL`. -/
def fullCompare (matching keys1 keys2 : Finset String)
    (objs1 objs2 : String → RObj) (verbosity : Nat) : Nat :=
  let missing1 := matching \ keys1
  let missing2 := matching \ keys2
  let common := matching ∩ keys1 ∩ keys2
  let bad := (common.filter fun k => truthy (compare_plot (objs1 k) (objs2 k) verbosity) = false).card
  if bad > 0 then ExitStatus.DIFFERENCE_COMMON
  else if missing2.card > 0 then ExitStatus.SECOND_MISS
  else if missing1.card > 0 then ExitStatus.FIRST_MISS
  else ExitStatus.IDENTICAL

/-- `diff_full` followed by `main`'s mapping of the `diff` return code:
the external `diff` over the two sorted key listings returns 0 exactly
when they are identical, which for sets of keys is set equality. -/
def diff_full_ret (keys1 keys2 : Finset String) : Nat :=
  if keys1 = keys2 then ExitStatus.IDENTICAL else ExitStatus.EITHER_MISS

/-- `main()`: the returned python value (`none` models `return None`,
which happens when `diff_set` falls through). -/
def mainRun (inp : MainInput) (args : Args) (verbosity : Nat) : Option Nat :=
  if inp.sameFile then some ExitStatus.CLARG_ERROR
  else if args.diffMode then some (diff_full_ret inp.keys1 inp.keys2)
  else if args.setMode then diff_set_ret inp.keys1 inp.keys2
  else
    match selectKeys inp.keys1 inp.keys2 args.plot args.plotExclude with
    | none => some ExitStatus.CLARG_ERROR
    | some matching =>
        some (fullCompare matching inp.keys1 inp.keys2 inp.objs1 inp.objs2 verbosity)

/-- `exit(main())`: `exit(None)` (and `exit(0)`) terminate the process
with status 0. -/
def processExitCode (r : Option Nat) : Nat := r.getD 0

/- ## Helper lemmas -/

theorem binScanEvery_false (l : List (Int × Int)) : binScanEvery l false = false := by
  induction l with
  | nil => rfl
  | cons p rest ih =>
      obtain ⟨c1, c2⟩ := p
      simp only [binScanEvery]
      split <;> exact ih

theorem binScanEvery_eq_early (l : List (Int × Int)) :
    binScanEvery l true = binScanEarly l := by
  induction l with
  | nil => rfl
  | cons p rest ih =>
      obtain ⟨c1, c2⟩ := p
      simp only [binScanEvery, binScanEarly]
      split
      · exact binScanEvery_false rest
      · exact ih

theorem binScanEarly_true_iff (l : List (Int × Int)) :
    binScanEarly l = true ↔ ∀ p ∈ l, p.1 = p.2 := by
  induction l with
  | nil => simp [binScanEarly]
  | cons p rest ih =>
      obtain ⟨c1, c2⟩ := p
      by_cases h : c1 = c2
      · simp [binScanEarly, h, ih]
      · simp [binScanEarly, h]

theorem binPairs_all_eq (h1 h2 : Hist) :
    (∀ p ∈ binPairs h1 h2, p.1 = p.2) ↔
      ∀ b < h1.GetNcells, h1.GetBinContent b = h2.GetBinContent b := by
  simp [binPairs]

theorem compare_plot_hist (h1 h2 : Hist) (v : Nat)
    (hdim : h1.dim = h2.dim) (hnc : h1.GetNcells = h2.GetNcells) :
    compare_plot (RObj.hist h1) (RObj.hist h2) v =
      some (binScanEarly (binPairs h1 h2)) := by
  simp only [compare_plot, if_pos hdim, if_pos hnc]
  congr 1
  split
  · exact binScanEvery_eq_early _
  · rfl

/- ## C1 -/

/-- C1: for two objects that both inherit from TH1 and have equal dimension
and equal cell count, `compare_plot` returns `True` if and only if the bin
contents agree exactly at every cell index `0 <= b < ncells`, at every
verbosity level. -/
theorem compare_plot_identical_iff (h1 h2 : Hist) (v : Nat)
    (hdim : h1.dim = h2.dim) (hnc : h1.GetNcells = h2.GetNcells) :
    compare_plot (RObj.hist h1) (RObj.hist h2) v = some true ↔
      ∀ b < h1.GetNcells, h1.GetBinContent b = h2.GetBinContent b := by
  rw [compare_plot_hist h1 h2 v hdim hnc, Option.some_inj, binScanEarly_true_iff,
    binPairs_all_eq]

/-- Witness for C1 at a concrete pair of 1-dimensional, 3-cell histograms
with equal contents. -/
theorem compare_plot_identical_iff_witness :
    compare_plot (RObj.hist (Hist.mk 1 [0, 4, 7])) (RObj.hist (Hist.mk 1 [0, 4, 7])) 1
      = some true :=
  (compare_plot_identical_iff (Hist.mk 1 [0, 4, 7]) (Hist.mk 1 [0, 4, 7]) 1 rfl rfl).mpr
    (by decide)

/- ## C8 -/

theorem compare_plot_verbosity (o1 o2 : RObj) (v w : Nat) :
    compare_plot o1 o2 v = compare_plot o1 o2 w := by
  cases o1 with
  | other s => rfl
  | hist h1 =>
      cases o2 with
      | other s => rfl
      | hist h2 =>
          simp only [compare_plot]
          split
          · split
            · congr 1
              split <;> split <;> simp [binScanEvery_eq_early]
            · rfl
          · rfl

theorem fullCompare_verbosity (M k1 k2 : Finset String)
    (objs1 objs2 : String → RObj) (v w : Nat) :
    fullCompare M k1 k2 objs1 objs2 v = fullCompare M k1 k2 objs1 objs2 w := by
  simp only [fullCompare]
  have hf : (M ∩ k1 ∩ k2).filter
        (fun k => truthy (compare_plot (objs1 k) (objs2 k) v) = false)
      = (M ∩ k1 ∩ k2).filter
        (fun k => truthy (compare_plot (objs1 k) (objs2 k) w) = false) := by
    apply Finset.filter_congr
    intro x _
    rw [compare_plot_verbosity (objs1 x) (objs2 x) v w]
  rw [hf]

/-- C8: the early-exit scan (verbosity < 3) and the full scan over all
cells (verbosity >= 3) classify every structurally compatible pair the
same way: `compare_plot`'s returned `ok_content` and the exit code
returned by `main` do not depend on the verbosity level. -/
theorem verbosity_independent :
    (∀ o1 o2 v w, compare_plot o1 o2 v = compare_plot o1 o2 w) ∧
    (∀ inp args v w, mainRun inp args v = mainRun inp args w) := by
  refine ⟨compare_plot_verbosity, fun inp args v w => ?_⟩
  simp only [mainRun]
  cases hsel : selectKeys inp.keys1 inp.keys2 args.plot args.plotExclude with
  | none => rfl
  | some M =>
      split_ifs <;> try rfl
      simp only [Option.some.injEq]
      exact fullCompare_verbosity M inp.keys1 inp.keys2 inp.objs1 inp.objs2 v w

/- ## C2 -/

/-- C2 (divergence witness): on a file holding a folder `A` that holds a
folder `B` that holds a leaf `h`, the spec requires the single
fully-qualified leaf path `A/B/h`, but `get_list_of_keys_deep` yields one
item which is a generator object (whose own items were never requested),
not the path string — the inner recursion uses `yield` where `yield from`
is needed. -/
theorem get_list_of_keys_deep_nested_bug :
    leafPaths [KeyTree.folder "A" [KeyTree.folder "B" [KeyTree.leaf "h"]]] "" = ["A/B/h"] ∧
    get_list_of_keys_deep [KeyTree.folder "A" [KeyTree.folder "B" [KeyTree.leaf "h"]]]
      = [PyItem.gen [PyItem.str "A/B/h"]] ∧
    get_list_of_keys_deep [KeyTree.folder "A" [KeyTree.folder "B" [KeyTree.leaf "h"]]]
      ≠ [PyItem.str "A/B/h"] := by
  refine ⟨?_, ?_, ?_⟩ <;>
    simp [leafPaths, get_list_of_keys_deep, get_keys_in_folder, pathJoin]

/- ## C3 -/

/-- C3 (failing evaluation): `diff_set` installs `missing1 & missing2` as
the `common` set, and the two differences are disjoint, so with
`keys1 = keys2 = {"a"}` the code's common set is empty while the
intersection of the two key sets is `{"a"}`; in fact the code's common set
is empty for every pair of key sets. -/
theorem diff_set_common_bug :
    diff_set_common {"a"} {"a"} = ∅ ∧
    ({"a"} : Finset String) ∩ {"a"} = {"a"} ∧
    (∀ keys1 keys2 : Finset String, diff_set_common keys1 keys2 = ∅) := by
  refine ⟨by decide, by decide, fun keys1 keys2 => ?_⟩
  ext x
  simp only [diff_set_common, Finset.mem_inter, Finset.mem_sdiff,
    Finset.not_mem_empty, iff_false]
  rintro ⟨⟨h2, h1⟩, ⟨h1', h2'⟩⟩
  exact h1 h1'

/- ## C4 -/

/-- C4 (failing evaluation): in `--set` mode with `keys1 = {}` and
`keys2 = {"a"}` only the first file is missing a key, so the claim requires
exit code `FIRST_MISS` (11); but `diff_set`'s `elif` re-tests `missing2`
and its `else` lacks a `return`, so `main` returns `None` and the process
exits with status 0. -/
theorem set_mode_first_miss_bug :
    mainRun (MainInput.mk false ∅ {"a"} (fun _ => RObj.other "TTree")
        (fun _ => RObj.other "TTree"))
      (Args.mk false true none none) 1 = none ∧
    processExitCode (mainRun (MainInput.mk false ∅ {"a"} (fun _ => RObj.other "TTree")
        (fun _ => RObj.other "TTree"))
      (Args.mk false true none none) 1) = ExitStatus.IDENTICAL ∧
    ((∅ : Finset String) \ {"a"} = ∅) ∧
    0 < (({"a"} : Finset String) \ ∅).card ∧
    ExitStatus.IDENTICAL ≠ ExitStatus.FIRST_MISS := by
  refine ⟨?_, ?_, by decide, by decide, by decide⟩ <;> rfl

/- ## C7 -/

/-- C7 (counterexample): two files with the single common key `"t"` whose
retrieved objects are both non-histograms and otherwise identical key
sets: the pair is counted in the different-content total and the process
exits with `DIFFERENCE_COMMON` (13), not 0 as the claim requires. -/
theorem nonhistogram_causes_difference_exit :
    RObj.isTH1 (RObj.other "TTree") = false ∧
    mainRun (MainInput.mk false {"t"} {"t"} (fun _ => RObj.other "TTree")
        (fun _ => RObj.other "TTree"))
      (Args.mk false false none none) 1 = some ExitStatus.DIFFERENCE_COMMON := by
  exact ⟨rfl, rfl⟩

/-- C7 (amended): a common pair whose objects are not both histograms is
detected and its bin comparison is skipped (`compare_plot` returns `None`
without touching any bin), but `main` treats the falsy `None` as BAD: the
pair does count toward the different-content total and by itself forces
the exit code `DIFFERENCE_COMMON` (13). -/
theorem nonhistogram_skipped_but_bad (o1 o2 : RObj) (v : Nat)
    (hnh : RObj.isTH1 o1 = false ∨ RObj.isTH1 o2 = false)
    (M keys1 keys2 : Finset String) (objs1 objs2 : String → RObj)
    (hk : ∃ k ∈ M ∩ keys1 ∩ keys2, compare_plot (objs1 k) (objs2 k) v = none) :
    compare_plot o1 o2 v = none ∧
    truthy (compare_plot o1 o2 v) = false ∧
    fullCompare M keys1 keys2 objs1 objs2 v = ExitStatus.DIFFERENCE_COMMON := by
  have hnone : compare_plot o1 o2 v = none := by
    cases o1 with
    | other s => cases o2 <;> rfl
    | hist h1 =>
        cases o2 with
        | other s => rfl
        | hist h2 => simp [RObj.isTH1] at hnh
  refine ⟨hnone, by rw [hnone]; rfl, ?_⟩
  obtain ⟨k, hkmem, hknone⟩ := hk
  have hpos : 0 < ((M ∩ keys1 ∩ keys2).filter
      (fun k => truthy (compare_plot (objs1 k) (objs2 k) v) = false)).card := by
    apply Finset.card_pos.mpr
    exact ⟨k, Finset.mem_filter.mpr ⟨hkmem, by rw [hknone]; rfl⟩⟩
  simp only [fullCompare]
  rw [if_pos hpos]

/-- Witness for the amended C7 at a concrete input: common key `"t"`, both
objects of class `TTree`. -/
theorem nonhistogram_skipped_but_bad_witness :
    compare_plot (RObj.other "TTree") (RObj.other "TTree") 1 = none ∧
    truthy (compare_plot (RObj.other "TTree") (RObj.other "TTree") 1) = false ∧
    fullCompare {"t"} {"t"} {"t"} (fun _ => RObj.other "TTree")
      (fun _ => RObj.other "TTree") 1 = ExitStatus.DIFFERENCE_COMMON :=
  nonhistogram_skipped_but_bad (RObj.other "TTree") (RObj.other "TTree") 1 (Or.inl rfl)
    {"t"} {"t"} {"t"} (fun _ => RObj.other "TTree") (fun _ => RObj.other "TTree")
    ⟨"t", by decide, rfl⟩

/- ## C6 -/

/-- C6: each error condition — the two arguments name the same file, the
`--plot` regex matches no key, or `--plot-exclude` excludes every remaining
key — makes `main` return the exit code `CLARG_ERROR` (2) before any
comparison is reached. -/
theorem main_clarg_error_cases (inp : MainInput) (args : Args) (v : Nat)
    (p e : String → Bool) :
    (inp.sameFile = true → mainRun inp args v = some ExitStatus.CLARG_ERROR) ∧
    (inp.sameFile = false → args.diffMode = false → args.setMode = false →
      args.plot = some p →
      ((inp.keys1 ∪ inp.keys2).filter fun k => p k).card = 0 →
      mainRun inp args v = some ExitStatus.CLARG_ERROR) ∧
    (inp.sameFile = false → args.diffMode = false → args.setMode = false →
      args.plotExclude = some e →
      (∀ M, selectPlotKeys (inp.keys1 ∪ inp.keys2) args.plot = some M →
        (M.filter fun k => !(e k)).card = 0) →
      mainRun inp args v = some ExitStatus.CLARG_ERROR) := by
  refine ⟨fun hsame => by simp [mainRun, hsame], ?_, ?_⟩
  · intro hsame hdiff hset hplot hempty
    have hsel : selectKeys inp.keys1 inp.keys2 args.plot args.plotExclude = none := by
      simp [selectKeys, selectPlotKeys, hplot, hempty]
    simp [mainRun, hsame, hdiff, hset, hsel]
  · intro hsame hdiff hset hexcl hempty
    have hsel : selectKeys inp.keys1 inp.keys2 args.plot args.plotExclude = none := by
      simp only [selectKeys]
      cases hp : selectPlotKeys (inp.keys1 ∪ inp.keys2) args.plot with
      | none => rfl
      | some M =>
          simp only [Option.some_bind, selectExcludeKeys, hexcl]
          rw [if_pos (hempty M hp)]
    simp [mainRun, hsame, hdiff, hset, hsel]

/-- Witness for C6: the three error conditions demonstrated at concrete
inputs — identical files; a `--plot` filter matching nothing over key sets
`{"a"}` and `{}`; a `--plot-exclude` filter excluding everything. -/
theorem main_clarg_error_cases_witness :
    mainRun (MainInput.mk true {"a"} ∅ (fun _ => RObj.other "x") (fun _ => RObj.other "x"))
      (Args.mk false false none none) 1 = some ExitStatus.CLARG_ERROR ∧
    mainRun (MainInput.mk false {"a"} ∅ (fun _ => RObj.other "x") (fun _ => RObj.other "x"))
      (Args.mk false false (some fun _ => false) none) 1 = some ExitStatus.CLARG_ERROR ∧
    mainRun (MainInput.mk false {"a"} ∅ (fun _ => RObj.other "x") (fun _ => RObj.other "x"))
      (Args.mk false false none (some fun _ => true)) 1 = some ExitStatus.CLARG_ERROR := by
  refine ⟨?_, ?_, ?_⟩
  · exact (main_clarg_error_cases
      (MainInput.mk true {"a"} ∅ (fun _ => RObj.other "x") (fun _ => RObj.other "x"))
      (Args.mk false false none none) 1 (fun _ => false) (fun _ => true)).1 rfl
  · exact (main_clarg_error_cases
      (MainInput.mk false {"a"} ∅ (fun _ => RObj.other "x") (fun _ => RObj.other "x"))
      (Args.mk false false (some fun _ => false) none) 1 (fun _ => false) (fun _ => true)).2.1
      rfl rfl rfl rfl (by rfl)
  · exact (main_clarg_error_cases
      (MainInput.mk false {"a"} ∅ (fun _ => RObj.other "x") (fun _ => RObj.other "x"))
      (Args.mk false false none (some fun _ => true)) 1 (fun _ => false) (fun _ => true)).2.2
      rfl rfl rfl rfl (fun M hM => by cases hM; rfl)

/- ## C5 -/

theorem fullCompare_bad_iff (M k1 k2 : Finset String)
    (objs1 objs2 : String → RObj) (v : Nat)
    (hhist : ∀ k ∈ M ∩ k1 ∩ k2, compare_plot (objs1 k) (objs2 k) v ≠ none) :
    (0 < ((M ∩ k1 ∩ k2).filter fun k =>
        truthy (compare_plot (objs1 k) (objs2 k) v) = false).card) ↔
      ∃ k ∈ M ∩ k1 ∩ k2, compare_plot (objs1 k) (objs2 k) v = some false := by
  rw [Finset.card_pos]
  constructor
  · rintro ⟨k, hk⟩
    rw [Finset.mem_filter] at hk
    obtain ⟨hkm, hkf⟩ := hk
    refine ⟨k, hkm, ?_⟩
    rcases hres : compare_plot (objs1 k) (objs2 k) v with _ | b
    · exact absurd hres (hhist k hkm)
    · cases b with
      | false => rfl
      | true => rw [hres] at hkf; simp [truthy] at hkf
  · rintro ⟨k, hkm, hres⟩
    exact ⟨k, Finset.mem_filter.mpr ⟨hkm, by rw [hres]; rfl⟩⟩

/-- C5: in full content-comparison mode (no `--diff`, no `--set`, files
distinct, selection non-empty), when every common pair is a structurally
comparable histogram pair, `main`'s exit code follows the priority:
`DIFFERENCE_COMMON` (13) exactly when some common pair has differing
content, otherwise `SECOND_MISS` (12) exactly when the second file is
missing selected keys, otherwise `FIRST_MISS` (11) exactly when the first
is, otherwise `IDENTICAL` (0). -/
theorem full_mode_exit_priority (inp : MainInput) (args : Args) (v : Nat)
    (M : Finset String)
    (hsame : inp.sameFile = false) (hdiff : args.diffMode = false)
    (hset : args.setMode = false)
    (hsel : selectKeys inp.keys1 inp.keys2 args.plot args.plotExclude = some M)
    (hhist : ∀ k ∈ M ∩ inp.keys1 ∩ inp.keys2,
      compare_plot (inp.objs1 k) (inp.objs2 k) v ≠ none) :
    (mainRun inp args v = some ExitStatus.DIFFERENCE_COMMON ↔
      ∃ k ∈ M ∩ inp.keys1 ∩ inp.keys2,
        compare_plot (inp.objs1 k) (inp.objs2 k) v = some false) ∧
    (mainRun inp args v = some ExitStatus.SECOND_MISS ↔
      (¬ ∃ k ∈ M ∩ inp.keys1 ∩ inp.keys2,
        compare_plot (inp.objs1 k) (inp.objs2 k) v = some false) ∧
      (M \ inp.keys2).Nonempty) ∧
    (mainRun inp args v = some ExitStatus.FIRST_MISS ↔
      (¬ ∃ k ∈ M ∩ inp.keys1 ∩ inp.keys2,
        compare_plot (inp.objs1 k) (inp.objs2 k) v = some false) ∧
      M \ inp.keys2 = ∅ ∧ (M \ inp.keys1).Nonempty) ∧
    (mainRun inp args v = some ExitStatus.IDENTICAL ↔
      (¬ ∃ k ∈ M ∩ inp.keys1 ∩ inp.keys2,
        compare_plot (inp.objs1 k) (inp.objs2 k) v = some false) ∧
      M \ inp.keys2 = ∅ ∧ M \ inp.keys1 = ∅) := by
  have hmain : mainRun inp args v =
      some (fullCompare M inp.keys1 inp.keys2 inp.objs1 inp.objs2 v) := by
    simp [mainRun, hsame, hdiff, hset, hsel]
  have hbad := fullCompare_bad_iff M inp.keys1 inp.keys2 inp.objs1 inp.objs2 v hhist
  rw [hmain]
  simp only [fullCompare, Option.some.injEq]
  by_cases hB : ((M ∩ inp.keys1 ∩ inp.keys2).filter fun k =>
      truthy (compare_plot (inp.objs1 k) (inp.objs2 k) v) = false).card > 0
  · have hEx := hbad.mp hB
    rw [if_pos hB]
    exact ⟨iff_of_true rfl hEx,
      iff_of_false (by decide) fun h => h.1 hEx,
      iff_of_false (by decide) fun h => h.1 hEx,
      iff_of_false (by decide) fun h => h.1 hEx⟩
  · have hnEx : ¬ ∃ k ∈ M ∩ inp.keys1 ∩ inp.keys2,
        compare_plot (inp.objs1 k) (inp.objs2 k) v = some false :=
      fun hEx => hB (hbad.mpr hEx)
    rw [if_neg hB]
    by_cases h2 : (M \ inp.keys2).card > 0
    · rw [if_pos h2]
      exact ⟨iff_of_false (by decide) fun hEx => hnEx hEx,
        iff_of_true rfl ⟨hnEx, Finset.card_pos.mp h2⟩,
        iff_of_false (by decide) fun h => by
          rw [h.2.1] at h2; exact absurd h2 (by simp),
        iff_of_false (by decide) fun h => by
          rw [h.2.1] at h2; exact absurd h2 (by simp)⟩
    · have he2 : M \ inp.keys2 = ∅ :=
        Finset.card_eq_zero.mp (Nat.eq_zero_of_not_pos h2)
      rw [if_neg h2]
      by_cases h1 : (M \ inp.keys1).card > 0
      · rw [if_pos h1]
        exact ⟨iff_of_false (by decide) hnEx,
          iff_of_false (by decide) fun h => by
            obtain ⟨x, hx⟩ := h.2; rw [he2] at hx; exact absurd hx (Finset.not_mem_empty x),
          iff_of_true rfl ⟨hnEx, he2, Finset.card_pos.mp h1⟩,
          iff_of_false (by decide) fun h => by
            rw [h.2.2] at h1; exact absurd h1 (by simp)⟩
      · have he1 : M \ inp.keys1 = ∅ :=
          Finset.card_eq_zero.mp (Nat.eq_zero_of_not_pos h1)
        rw [if_neg h1]
        exact ⟨iff_of_false (by decide) hnEx,
          iff_of_false (by decide) fun h => by
            obtain ⟨x, hx⟩ := h.2; rw [he2] at hx; exact absurd hx (Finset.not_mem_empty x),
          iff_of_false (by decide) fun h => by
            obtain ⟨x, hx⟩ := h.2.2; rw [he1] at hx; exact absurd hx (Finset.not_mem_empty x),
          iff_of_true rfl ⟨hnEx, he2, he1⟩⟩

/-- Witness for C5: two files with the single key `"a"`, whose histograms
have one cell with contents 5 and 6. -/
theorem full_mode_exit_priority_witness :
    mainRun (MainInput.mk false {"a"} {"a"} (fun _ => RObj.hist (Hist.mk 1 [5]))
        (fun _ => RObj.hist (Hist.mk 1 [6])))
      (Args.mk false false none none) 1 = some ExitStatus.DIFFERENCE_COMMON ↔
      ∃ k ∈ (({"a"} : Finset String) ∪ {"a"}) ∩ {"a"} ∩ {"a"},
        compare_plot (RObj.hist (Hist.mk 1 [5])) (RObj.hist (Hist.mk 1 [6])) 1
          = some false :=
  (full_mode_exit_priority
    (MainInput.mk false {"a"} {"a"} (fun _ => RObj.hist (Hist.mk 1 [5]))
      (fun _ => RObj.hist (Hist.mk 1 [6])))
    (Args.mk false false none none) 1 (({"a"} : Finset String) ∪ {"a"})
    rfl rfl rfl rfl (by decide)).1

/- ## C9 -/

theorem selectPlotKeys_subset (K : Finset String) (plot : Option (String → Bool))
    (M : Finset String) (h : selectPlotKeys K plot = some M) : M ⊆ K := by
  cases plot with
  | none =>
      simp only [selectPlotKeys, Option.some.injEq] at h
      rw [← h]
  | some p =>
      simp only [selectPlotKeys] at h
      split at h
      · cases h
      · rw [Option.some.injEq] at h
        rw [← h]
        exact Finset.filter_subset _ _

theorem selectExcludeKeys_subset (K : Finset String) (exclude : Option (String → Bool))
    (M : Finset String) (h : selectExcludeKeys K exclude = some M) : M ⊆ K := by
  cases exclude with
  | none =>
      simp only [selectExcludeKeys, Option.some.injEq] at h
      rw [← h]
  | some e =>
      simp only [selectExcludeKeys] at h
      split at h
      · cases h
      · rw [Option.some.injEq] at h
        rw [← h]
        exact Finset.filter_subset _ _

theorem selectKeys_subset (keys1 keys2 : Finset String)
    (plot exclude : Option (String → Bool)) (M : Finset String)
    (h : selectKeys keys1 keys2 plot exclude = some M) : M ⊆ keys1 ∪ keys2 := by
  unfold selectKeys at h
  cases hp : selectPlotKeys (keys1 ∪ keys2) plot with
  | none => rw [hp] at h; cases h
  | some m1 =>
      rw [hp, Option.some_bind] at h
      exact (selectExcludeKeys_subset m1 exclude M h).trans
        (selectPlotKeys_subset (keys1 ∪ keys2) plot m1 hp)

/-- C9: for every pair of key sets and every filter selection, the three
reported subsets `missing_keys[1]`, `missing_keys[2]` and `common_keys`
are pairwise disjoint, their union is `matching_keys`, and their sizes sum
to `matching_keys`'s size (the percentage denominator). -/
theorem missing_common_partition (keys1 keys2 : Finset String)
    (plot exclude : Option (String → Bool)) (M : Finset String)
    (hsel : selectKeys keys1 keys2 plot exclude = some M) :
    ((M \ keys1) ∩ (M \ keys2) = ∅ ∧
     (M \ keys1) ∩ (M ∩ keys1 ∩ keys2) = ∅ ∧
     (M \ keys2) ∩ (M ∩ keys1 ∩ keys2) = ∅) ∧
    (M \ keys1) ∪ (M \ keys2) ∪ (M ∩ keys1 ∩ keys2) = M ∧
    (M \ keys1).card + (M \ keys2).card + (M ∩ keys1 ∩ keys2).card = M.card := by
  have hsub : M ⊆ keys1 ∪ keys2 := selectKeys_subset keys1 keys2 plot exclude M hsel
  have h12 : (M \ keys1) ∩ (M \ keys2) = ∅ := by
    ext x
    simp only [Finset.mem_inter, Finset.mem_sdiff, Finset.not_mem_empty, iff_false]
    rintro ⟨⟨hxM, hx1⟩, ⟨-, hx2⟩⟩
    rcases Finset.mem_union.mp (hsub hxM) with h | h
    exacts [hx1 h, hx2 h]
  have h1c : (M \ keys1) ∩ (M ∩ keys1 ∩ keys2) = ∅ := by
    ext x
    simp only [Finset.mem_inter, Finset.mem_sdiff, Finset.not_mem_empty, iff_false]
    rintro ⟨⟨-, hx1⟩, ⟨-, hk1⟩, -⟩
    exact hx1 hk1
  have h2c : (M \ keys2) ∩ (M ∩ keys1 ∩ keys2) = ∅ := by
    ext x
    simp only [Finset.mem_inter, Finset.mem_sdiff, Finset.not_mem_empty, iff_false]
    rintro ⟨⟨-, hx2⟩, -, hk2⟩
    exact hx2 hk2
  have hu : (M \ keys1) ∪ (M \ keys2) ∪ (M ∩ keys1 ∩ keys2) = M := by
    ext x
    simp only [Finset.mem_union, Finset.mem_sdiff, Finset.mem_inter]
    constructor
    · rintro ((⟨h, -⟩ | ⟨h, -⟩) | ⟨⟨h, -⟩, -⟩) <;> exact h
    · intro hxM
      by_cases hk1 : x ∈ keys1
      · by_cases hk2 : x ∈ keys2
        · exact Or.inr ⟨⟨hxM, hk1⟩, hk2⟩
        · exact Or.inl (Or.inr ⟨hxM, hk2⟩)
      · exact Or.inl (Or.inl ⟨hxM, hk1⟩)
  refine ⟨⟨h12, h1c, h2c⟩, hu, ?_⟩
  have d12 : Disjoint (M \ keys1) (M \ keys2) :=
    Finset.disjoint_iff_inter_eq_empty.mpr h12
  have dc : Disjoint ((M \ keys1) ∪ (M \ keys2)) (M ∩ keys1 ∩ keys2) :=
    Finset.disjoint_union_left.mpr
      ⟨Finset.disjoint_iff_inter_eq_empty.mpr h1c,
       Finset.disjoint_iff_inter_eq_empty.mpr h2c⟩
  calc (M \ keys1).card + (M \ keys2).card + (M ∩ keys1 ∩ keys2).card
      = ((M \ keys1) ∪ (M \ keys2)).card + (M ∩ keys1 ∩ keys2).card := by
        rw [Finset.card_union_of_disjoint d12]
    _ = ((M \ keys1) ∪ (M \ keys2) ∪ (M ∩ keys1 ∩ keys2)).card := by
        rw [Finset.card_union_of_disjoint dc]
    _ = M.card := by rw [hu]

/-- Witness for C9 with key sets `{"a"}` and `{"b"}` and no filters: the
sizes of the three reported subsets sum to the denominator. -/
theorem missing_common_partition_witness :
    (({"a"} ∪ {"b"} : Finset String) \ ({"a"} : Finset String)).card +
      (({"a"} ∪ {"b"} : Finset String) \ ({"b"} : Finset String)).card +
      (({"a"} ∪ {"b"} : Finset String) ∩ ({"a"} : Finset String) ∩ ({"b"} : Finset String)).card
      = ({"a"} ∪ {"b"} : Finset String).card :=
  (missing_common_partition {"a"} {"b"} none none ({"a"} ∪ {"b"}) rfl).2.2

/- ## C10 -/

theorem print_missing_divs_pos (m1 m2 c : Finset String) (total : Nat)
    (h1 : 0 < m1.card → 0 < total) (h2 : 0 < m2.card → 0 < total)
    (h3 : 0 < c.card → 0 < total) :
    ∀ d ∈ print_missing_divs m1 m2 c total, 0 < d := by
  intro d hd
  unfold print_missing_divs at hd
  simp only [List.mem_append] at hd
  rcases hd with (hd | hd) | hd
  · split at hd
    · rw [List.mem_singleton] at hd
      subst hd
      exact h1 (by assumption)
    · cases hd
  · split at hd
    · rw [List.mem_singleton] at hd
      subst hd
      exact h2 (by assumption)
    · cases hd
  · split at hd
    · rw [List.mem_singleton] at hd
      subst hd
      exact h3 (by assumption)
    · cases hd

/-- C10: no report ever divides by zero — `print_content_status` divides
only when `OK + BAD` is non-zero, and at both of `print_missing`'s call
sites (the full-comparison report in `main` and the `--set` report in
`diff_set`) every division that executes has a positive total, each
reported subset being contained in the set whose size is the total. -/
theorem report_divisions_positive :
    (∀ ok bad d, d ∈ print_content_status_divs ok bad → 0 < d) ∧
    (∀ (keys1 keys2 M : Finset String),
      ∀ d ∈ print_missing_divs (M \ keys1) (M \ keys2) (M ∩ keys1 ∩ keys2) M.card,
        0 < d) ∧
    (∀ keys1 keys2 : Finset String,
      ∀ d ∈ print_missing_divs (keys2 \ keys1) (keys1 \ keys2)
        (diff_set_common keys1 keys2) (keys1 ∪ keys2).card, 0 < d) := by
  refine ⟨?_, ?_, ?_⟩
  · intro ok bad d hd
    unfold print_content_status_divs at hd
    simp only at hd
    split at hd
    · cases hd
    · have hpos : 0 < ok + bad := Nat.pos_of_ne_zero (by assumption)
      rw [List.mem_append] at hd
      rcases hd with hd | hd
      · rw [List.mem_singleton] at hd; rw [hd]; exact hpos
      · split at hd
        · cases hd
        · rw [List.mem_singleton] at hd; rw [hd]; exact hpos
  · intro keys1 keys2 M
    apply print_missing_divs_pos
    · intro h
      exact lt_of_lt_of_le h (Finset.card_le_card (Finset.sdiff_subset))
    · intro h
      exact lt_of_lt_of_le h (Finset.card_le_card (Finset.sdiff_subset))
    · intro h
      exact lt_of_lt_of_le h (Finset.card_le_card
        ((Finset.inter_subset_left).trans Finset.inter_subset_left))
  · intro keys1 keys2
    apply print_missing_divs_pos
    · intro h
      exact lt_of_lt_of_le h (Finset.card_le_card
        (Finset.sdiff_subset.trans Finset.subset_union_right))
    · intro h
      exact lt_of_lt_of_le h (Finset.card_le_card
        (Finset.sdiff_subset.trans Finset.subset_union_left))
    · intro h
      exact lt_of_lt_of_le h (Finset.card_le_card
        ((Finset.inter_subset_left).trans
          (Finset.sdiff_subset.trans Finset.subset_union_right)))

/-- Witness for C10: `print_content_status` with one OK and one BAD pair
divides by 2, which is positive. -/
theorem report_divisions_positive_witness :
    2 ∈ print_content_status_divs 1 1 ∧ 0 < 2 :=
  ⟨by decide, report_divisions_positive.1 1 1 2 (by decide)⟩
